import Mathlib

/-!
Verification of the episode-selection and playlist-synchronization logic of
`daily_news_playlist.py`, a batch job that curates a Spotify playlist with the
latest episodes of a fixed set of podcast shows.

The script's network interactions are modelled by oracles packaged in a
`World` structure; the pure logic (date parsing, freshness selection,
deduplicated list building, playlist lookup/creation, and the orchestration in
`main`) is embedded as executable Lean functions that mirror the Python source
line by line.
-/

namespace DailyNews

/-! ## Configuration constants (from the module top level) -/

def PLAYLIST_NAME : String := "Notícias do Dia (Auto)"

def PLAYLIST_DESCRIPTION : String :=
  "Atualizada automaticamente com notícias gerais e de esportes (futebol) das últimas 24–36h."

def NEWS_SHOW_QUERIES : List String :=
  ["the news ☕️", "Resumão Diário", "Café da Manhã", "Ao Ponto"]

def SPORTS_SHOW_QUERIES : List String :=
  ["Resumo do dIA ge", "CBN Esportes"]

def FRESH_HOURS : Int := 36

def MARKET : String := "BR"

/-! ## Dates

`datetime.strptime(release_date, "%Y-%m-%d")` parses a `YYYY-MM-DD` calendar
date (year 1–9999, month and day validated against the calendar) and the code
then sets the time of day to noon UTC.  We embed the timestamp as seconds
since the Unix epoch, computed with the standard civil-calendar conversion. -/

def isLeapYear (y : Nat) : Bool :=
  (y % 4 == 0 && y % 100 != 0) || y % 400 == 0

def daysInMonth (y m : Nat) : Nat :=
  if m = 2 then (if isLeapYear y then 29 else 28)
  else if m = 4 ∨ m = 6 ∨ m = 9 ∨ m = 11 then 30
  else 31

/-- Days since 1970-01-01 of the civil date `y-m-d` (proleptic Gregorian). -/
def daysFromCivil (y m d : Int) : Int :=
  let y' := if m ≤ 2 then y - 1 else y
  let era := (if 0 ≤ y' then y' else y' - 399) / 400
  let yoe := y' - era * 400
  let doy := (153 * (m + (if 2 < m then -3 else 9)) + 2) / 5 + d - 1
  let doe := yoe * 365 + yoe / 4 - yoe / 100 + doy
  era * 146097 + doe - 719468

/-- Seconds since the Unix epoch of `y-m-d` at 12:00:00 UTC — the instant the
code assigns to a parsed release date (`.replace(tzinfo=utc, hour=12)`). -/
def noonSeconds (y m d : Int) : Int :=
  daysFromCivil y m d * 86400 + 43200

/-- Split a character list at every dash, the single-separator case of
Python's `str.split`. -/
def splitDash : List Char → List (List Char)
  | [] => [[]]
  | c :: cs =>
    if c = '-' then [] :: splitDash cs
    else
      match splitDash cs with
      | g :: gs => (c :: g) :: gs
      | [] => [[c]]

/-- Numeric value of a digit string (`int` applied to a matched group). -/
def digitsToNat (cs : List Char) : Nat :=
  cs.foldl (fun n c => 10 * n + (c.toNat - 48)) 0

/-- A 1-to-`k`-digit group, as matched by one `%Y`/`%m`/`%d` directive. -/
def digitGroup (k : Nat) (cs : List Char) : Bool :=
  decide (1 ≤ cs.length) && decide (cs.length ≤ k) && cs.all Char.isDigit

/-- Parse of `datetime.strptime(s, "%Y-%m-%d")`: three dash-separated digit
groups (year up to 4 digits, month and day up to 2), validated as a real
calendar date; `none` models the `ValueError` branch. -/
def parseYMD (s : String) : Option (Nat × Nat × Nat) :=
  match splitDash s.data with
  | [ys, ms, ds] =>
    if digitGroup 4 ys && digitGroup 2 ms && digitGroup 2 ds then
      let y := digitsToNat ys
      let m := digitsToNat ms
      let d := digitsToNat ds
      if 1 ≤ y ∧ y ≤ 9999 ∧ 1 ≤ m ∧ m ≤ 12 ∧ 1 ≤ d ∧ d ≤ daysInMonth y m then
        some (y, m, d)
      else none
    else none
  | _ => none

/-- Elapsed time in hours, `(now - release_dt).total_seconds() / 3600`.
`now` carries sub-second precision (a rational number of epoch seconds),
`release_dt` is a whole number of epoch seconds. -/
def hoursSince (now : ℚ) (release_dt : Int) : ℚ :=
  (now - (release_dt : ℚ)) / 3600

/-! ## Freshness Selector (`get_latest_fresh_episode_uri`) -/

/-- One element of the show-episodes listing: its `uri` and (possibly absent)
`release_date` fields. -/
structure Episode where
  uri : String
  release_date : Option String
  deriving DecidableEq

/-- The `for episode in items` loop body of `get_latest_fresh_episode_uri`:
skip a falsy (`None` or empty) release date, skip an unparseable one, and
return the episode's URI as soon as the elapsed hours are `≤ fresh_hours`. -/
def freshLoop (now : ℚ) (fresh_hours : Int) : List Episode → Option String
  | [] => none
  | episode :: rest =>
    match episode.release_date with
    | none => freshLoop now fresh_hours rest
    | some release_date =>
      if release_date = "" then freshLoop now fresh_hours rest
      else
        match parseYMD release_date with
        | none => freshLoop now fresh_hours rest
        | some (y, m, d) =>
          let release_dt := noonSeconds y m d
          if hoursSince now release_dt ≤ (fresh_hours : ℚ) then some episode.uri
          else freshLoop now fresh_hours rest

/-- Function `get_latest_fresh_episode_uri`: `None` on an empty listing, the first
fresh episode's URI otherwise, falling back to the first (most recent)
episode's URI when no episode is fresh. -/
def get_latest_fresh_episode_uri (now : ℚ) (fresh_hours : Int)
    (items : List Episode) : Option String :=
  match items with
  | [] => none
  | first :: _ =>
    match freshLoop now fresh_hours items with
    | some uri => some uri
    | none => some first.uri

/-- An episode passes the freshness test: it has a non-empty, parseable
release date whose elapsed hours from `now` are at most `fresh_hours`. -/
def episodeFresh (now : ℚ) (fresh_hours : Int) (episode : Episode) : Bool :=
  match episode.release_date with
  | none => false
  | some release_date =>
    if release_date = "" then false
    else
      match parseYMD release_date with
      | none => false
      | some (y, m, d) =>
        decide (hoursSince now (noonSeconds y m d) ≤ (fresh_hours : ℚ))

/-! ## Environment (`env`) -/

/-- Function `env`: read an environment variable, failing with a `RuntimeError` when it
is absent or falsy (Python's `if not value` also rejects an empty string). -/
def env (environ : String → Option String) (name : String) : Except String String :=
  match environ name with
  | none => .error ("Missing environment variable: " ++ name)
  | some value =>
    if value = "" then .error ("Missing environment variable: " ++ name)
    else .ok value

/-! ## Remote interface

Every HTTP request the script can issue, identified by endpoint and payload.
The oracles in `World` stand for the remote API's responses: `environ` is the
process environment, `tokenResult` the outcome of the token exchange
(`raise_for_status` modelled as `.error`), `playlists` the user's playlists in
pagination order, `createId` the ID Spotify assigns to a newly created
playlist, `searchShow` the first search result for a query (limit 1), and
`episodes` a show's episode listing (limit 3, newest first) — `now` is the
instant `dt.datetime.utcnow()` returns, in epoch seconds. -/

inductive Call
  | postToken
  | getPlaylists (offset : Nat)
  | postCreatePlaylist (user_id name description : String) (isPublic : Bool)
  | getSearch (query : String)
  | getEpisodes (show_id : String)
  | putReplace (playlist_id : String) (uris : List String)
  deriving DecidableEq

/-- One entry of the `/me/playlists` listing: its `id` and `name` fields. -/
structure PlaylistEntry where
  id : String
  name : String
  deriving DecidableEq

structure World where
  environ : String → Option String
  tokenResult : Except String String
  playlists : List PlaylistEntry
  createId : String → String → String → Bool → String
  searchShow : String → Option String
  episodes : String → List Episode
  now : ℚ

/-! ## Playlist Resolver (`get_or_create_playlist`) -/

/-- The `while True` pagination loop of `get_or_create_playlist`: fetch a page
of 50, return the first entry whose name equals `name` exactly, advance by the
page size while a `next` page exists (`ps` is the not-yet-fetched suffix, so a
`next` link is present exactly when more than one page of it remains). -/
def lookup_pages (name : String) (offset : Nat) (ps : List PlaylistEntry) :
    List Call × Option String :=
  match (ps.take 50).find? (fun playlist => playlist.name = name) with
  | some playlist => ([Call.getPlaylists offset], some playlist.id)
  | none =>
    if h : 50 < ps.length then
      let r := lookup_pages name (offset + 50) (ps.drop 50)
      (Call.getPlaylists offset :: r.1, r.2)
    else ([Call.getPlaylists offset], none)
termination_by ps.length
decreasing_by simp only [List.length_drop]; omega

/-- Function `get_or_create_playlist`: return the ID found by the pagination loop, or
create a playlist with the given name/description/visibility and return its
new ID.  The first component records the HTTP requests issued. -/
def get_or_create_playlist (w : World) (user_id name description : String)
    (isPublic : Bool) : List Call × String :=
  match lookup_pages name 0 w.playlists with
  | (calls, some playlist_id) => (calls, playlist_id)
  | (calls, none) =>
    (calls ++ [Call.postCreatePlaylist user_id name description isPublic],
     w.createId user_id name description isPublic)

/-! ## Episode List Builder (`build_episode_list`) -/

/-- The nested `add_latest` closure: search the show, bail out on a falsy ID,
select its freshest episode, and append the URI when it is truthy and unseen.
State is `(calls, episode_uris, seen)`. -/
def add_latest (w : World) (calls : List Call) (episode_uris : List String)
    (seen : List String) (show_query : String) :
    List Call × List String × List String :=
  match w.searchShow show_query with
  | none => (calls ++ [Call.getSearch show_query], episode_uris, seen)
  | some show_id =>
    match get_latest_fresh_episode_uri w.now FRESH_HOURS (w.episodes show_id) with
    | none =>
      (calls ++ [Call.getSearch show_query, Call.getEpisodes show_id],
       episode_uris, seen)
    | some uri =>
      if uri ≠ "" ∧ uri ∉ seen then
        (calls ++ [Call.getSearch show_query, Call.getEpisodes show_id],
         episode_uris ++ [uri], uri :: seen)
      else
        (calls ++ [Call.getSearch show_query, Call.getEpisodes show_id],
         episode_uris, seen)

/-- The `for query in NEWS_SHOW_QUERIES + SPORTS_SHOW_QUERIES` loop. -/
def build_loop (w : World) : List String → List Call → List String → List String →
    List Call × List String × List String
  | [], calls, episode_uris, seen => (calls, episode_uris, seen)
  | query :: queries, calls, episode_uris, seen =>
    let st := add_latest w calls episode_uris seen query
    build_loop w queries st.1 st.2.1 st.2.2

/-- Function `build_episode_list`: run the loop over the configured queries starting
from empty accumulators and truncate the result to 20 (`episode_uris[:20]`).
The first component records the HTTP requests issued. -/
def build_episode_list (w : World) : List Call × List String :=
  let st := build_loop w (NEWS_SHOW_QUERIES ++ SPORTS_SHOW_QUERIES) [] [] []
  (st.1, st.2.1.take 20)

/-! ## Orchestration (`main`) -/

def NOTHING_FRESH_NOTICE : String :=
  "Nenhum episódio fresco encontrado; playlist não atualizada."

/-- Function `main`: token exchange (after reading the three credential variables),
read the user ID, resolve the playlist, build the episode list, and replace
the playlist's items exactly when the list is non-empty.  Returns the ordered
trace of HTTP requests together with the printed message (`.ok`) or the
propagated error (`.error`). -/
def main_run (w : World) : List Call × Except String String :=
  match env w.environ "SPOTIFY_CLIENT_ID" with
  | .error e => ([], .error e)
  | .ok _client_id =>
    match env w.environ "SPOTIFY_CLIENT_SECRET" with
    | .error e => ([], .error e)
    | .ok _client_secret =>
      match env w.environ "SPOTIFY_REFRESH_TOKEN" with
      | .error e => ([], .error e)
      | .ok _refresh_token =>
        match w.tokenResult with
        | .error e => ([Call.postToken], .error e)
        | .ok _token =>
          match env w.environ "SPOTIFY_USER_ID" with
          | .error e => ([Call.postToken], .error e)
          | .ok user_id =>
            let pl := get_or_create_playlist w user_id PLAYLIST_NAME
              PLAYLIST_DESCRIPTION false
            let built := build_episode_list w
            if built.2 = [] then
              (Call.postToken :: pl.1 ++ built.1, .ok NOTHING_FRESH_NOTICE)
            else
              (Call.postToken :: pl.1 ++ built.1 ++ [Call.putReplace pl.2 built.2],
               .ok ("Playlist atualizada com " ++ toString built.2.length
                 ++ " episódios."))

/-! ## Derived notions used to state the claims -/

/-- The URI a configured show query contributes when processed with an empty
`seen` set: its resolved show's selected episode URI, when the query resolves
and the selector returns a truthy URI. -/
def candidateURI (w : World) (show_query : String) : Option String :=
  match w.searchShow show_query with
  | none => none
  | some show_id =>
    match get_latest_fresh_episode_uri w.now FRESH_HOURS (w.episodes show_id) with
    | none => none
    | some uri => if uri = "" then none else some uri

/-- The contributed URIs of a query list, in configured order. -/
def candidates (w : World) (queries : List String) : List String :=
  queries.filterMap (candidateURI w)

/-- A required environment value is missing in Python's sense: the variable is
unset, or set to the falsy empty string. -/
def envMissing (w : World) (name : String) : Prop :=
  w.environ name = none ∨ w.environ name = some ""

/-! ## Concrete worlds used to instantiate the theorems -/

/-- A world whose four required variables are set, whose token exchange
succeeds, and in which no show query resolves. -/
def wNoShows : World where
  environ := fun _ => some "x"
  tokenResult := .ok "tok"
  playlists := []
  createId := fun _ _ _ _ => "pl-new"
  searchShow := fun _ => none
  episodes := fun _ => []
  now := 0

/-- A world whose credentials are set and token exchange succeeds, but whose
`SPOTIFY_USER_ID` variable is unset. -/
def wNoUserId : World where
  environ := fun name => if name = "SPOTIFY_USER_ID" then none else some "x"
  tokenResult := .ok "tok"
  playlists := []
  createId := fun _ _ _ _ => "pl-new"
  searchShow := fun _ => none
  episodes := fun _ => []
  now := 0

/-- A world in which the single query "q1" resolves to a show with an empty
episode listing. -/
def wEmptyListing : World where
  environ := fun _ => some "x"
  tokenResult := .ok "tok"
  playlists := []
  createId := fun _ _ _ _ => "pl-new"
  searchShow := fun q => if q = "q1" then some "show1" else none
  episodes := fun _ => []
  now := 0

end DailyNews

namespace DailyNews

/-! ## Lemmas about the Freshness Selector -/

theorem freshLoop_cons (now : ℚ) (fh : Int) (e : Episode) (rest : List Episode) :
    freshLoop now fh (e :: rest) =
      if episodeFresh now fh e then some e.uri else freshLoop now fh rest := by
  cases h : e.release_date with
  | none => simp [freshLoop, episodeFresh, h]
  | some rd =>
    by_cases hrd : rd = ""
    · simp [freshLoop, episodeFresh, h, hrd]
    · cases hp : parseYMD rd with
      | none => simp [freshLoop, episodeFresh, h, hrd, hp]
      | some ymd =>
        obtain ⟨y, m, d⟩ := ymd
        by_cases hle : hoursSince now (noonSeconds y m d) ≤ (fh : ℚ)
        · simp [freshLoop, episodeFresh, h, hrd, hp, hle]
        · simp [freshLoop, episodeFresh, h, hrd, hp, hle]

theorem freshLoop_eq_none (now : ℚ) (fh : Int) (items : List Episode)
    (hstale : ∀ e ∈ items, episodeFresh now fh e = false) :
    freshLoop now fh items = none := by
  induction items with
  | nil => rfl
  | cons e rest ih =>
    rw [freshLoop_cons, hstale e (List.mem_cons_self e rest)]
    exact ih fun x hx => hstale x (List.mem_cons_of_mem e hx)

theorem freshLoop_append (now : ℚ) (fh : Int) (pre l : List Episode)
    (hstale : ∀ e ∈ pre, episodeFresh now fh e = false) :
    freshLoop now fh (pre ++ l) = freshLoop now fh l := by
  induction pre with
  | nil => rfl
  | cons e rest ih =>
    rw [List.cons_append, freshLoop_cons, hstale e (List.mem_cons_self e rest)]
    exact ih fun x hx => hstale x (List.mem_cons_of_mem e hx)

theorem get_latest_of_fresh_at (now : ℚ) (fh : Int) (pre post : List Episode)
    (e : Episode) (hpre : ∀ x ∈ pre, episodeFresh now fh x = false)
    (he : episodeFresh now fh e = true) :
    get_latest_fresh_episode_uri now fh (pre ++ e :: post) = some e.uri := by
  have hfl : freshLoop now fh (pre ++ e :: post) = some e.uri := by
    rw [freshLoop_append now fh pre _ hpre, freshLoop_cons, he, if_pos rfl]
  obtain ⟨a, l, hal⟩ : ∃ a l, pre ++ e :: post = a :: l := by
    cases pre with
    | nil => exact ⟨e, post, rfl⟩
    | cons a rest => exact ⟨a, rest ++ e :: post, rfl⟩
  rw [hal] at hfl ⊢
  simp [get_latest_fresh_episode_uri, hfl]

/-- C2: for a show whose episode listing is non-empty but in which no listed
episode passes the freshness test (stale, unparseable or missing release
dates all fail it), the selector returns the URI of the first episode in the
fetched order. -/
theorem stale_show_falls_back_to_newest (now : ℚ) (fh : Int) (first : Episode)
    (rest items : List Episode) (hitems : items = first :: rest)
    (hstale : ∀ e ∈ items, episodeFresh now fh e = false) :
    get_latest_fresh_episode_uri now fh items = some first.uri := by
  subst hitems
  rw [get_latest_fresh_episode_uri, freshLoop_eq_none now fh _ hstale]

/-- Witness for C2: with the freshness window at 36 hours and "now" at noon
UTC on 2024-01-10, a show whose three episodes were released 2023-12-01,
2023-11-20 and 2023-11-01 (all stale) yields its first episode's URI. -/
theorem stale_show_falls_back_to_newest_witness :
    get_latest_fresh_episode_uri ((1704888000 : Int) : ℚ) FRESH_HOURS
      [⟨"uri:a", some "2023-12-01"⟩, ⟨"uri:b", some "2023-11-20"⟩,
       ⟨"uri:c", some "2023-11-01"⟩] = some "uri:a" := by
  have h1 : parseYMD "2023-12-01" = some (2023, 12, 1) := rfl
  have h2 : parseYMD "2023-11-20" = some (2023, 11, 20) := rfl
  have h3 : parseYMD "2023-11-01" = some (2023, 11, 1) := rfl
  refine stale_show_falls_back_to_newest _ _ ⟨"uri:a", some "2023-12-01"⟩ _ _ rfl ?_
  intro e he
  fin_cases he
  · simp [episodeFresh, h1, hoursSince, FRESH_HOURS, noonSeconds, daysFromCivil]
    norm_num
  · simp [episodeFresh, h2, hoursSince, FRESH_HOURS, noonSeconds, daysFromCivil]
    norm_num
  · simp [episodeFresh, h3, hoursSince, FRESH_HOURS, noonSeconds, daysFromCivil]
    norm_num

/-- C3: an episode whose elapsed hours from "now" equal the freshness window
exactly passes the `≤` comparison, so it is selected whenever every episode
before it in the fetched order fails the test. -/
theorem boundary_episode_selected (now : ℚ) (fh : Int) (pre post : List Episode)
    (e : Episode) (rd : String) (y m d : Nat)
    (hpre : ∀ x ∈ pre, episodeFresh now fh x = false)
    (hrd : e.release_date = some rd) (hne : rd ≠ "")
    (hp : parseYMD rd = some (y, m, d))
    (hb : hoursSince now (noonSeconds y m d) = (fh : ℚ)) :
    get_latest_fresh_episode_uri now fh (pre ++ e :: post) = some e.uri := by
  apply get_latest_of_fresh_at now fh pre post e hpre
  simp [episodeFresh, hrd, hne, hp, hb]

/-- Witness for C3: with "now" exactly 36 hours after noon UTC on 2024-01-09,
the episode released 2024-01-09 sits exactly on the window boundary and is
selected. -/
theorem boundary_episode_selected_witness :
    get_latest_fresh_episode_uri ((1704931200 : Int) : ℚ) FRESH_HOURS
      [⟨"uri:x", some "2024-01-09"⟩] = some "uri:x" := by
  have h := boundary_episode_selected ((1704931200 : Int) : ℚ) FRESH_HOURS
    [] [] ⟨"uri:x", some "2024-01-09"⟩ "2024-01-09" 2024 1 9
    (by intro x hx; simp at hx) rfl (by decide) rfl
    (by norm_num [hoursSince, FRESH_HOURS, noonSeconds, daysFromCivil])
  simpa using h

/-- C7: with the 36-hour window and "now" at 2024-01-10T12:00:00Z, episodes
released 2024-01-09, 2024-01-08 and 2024-01-05 have elapsed hours 24, 48 and
120, and the selector returns the 2024-01-09 episode's URI. -/
theorem scenario_jan10_selects_jan9 :
    hoursSince ((noonSeconds 2024 1 10 : Int) : ℚ) (noonSeconds 2024 1 9) = 24 ∧
    hoursSince ((noonSeconds 2024 1 10 : Int) : ℚ) (noonSeconds 2024 1 8) = 48 ∧
    hoursSince ((noonSeconds 2024 1 10 : Int) : ℚ) (noonSeconds 2024 1 5) = 120 ∧
    get_latest_fresh_episode_uri ((noonSeconds 2024 1 10 : Int) : ℚ) FRESH_HOURS
      [⟨"uri:jan09", some "2024-01-09"⟩, ⟨"uri:jan08", some "2024-01-08"⟩,
       ⟨"uri:jan05", some "2024-01-05"⟩] = some "uri:jan09" := by
  have h1 : parseYMD "2024-01-09" = some (2024, 1, 9) := rfl
  refine ⟨?_, ?_, ?_, ?_⟩
  · norm_num [hoursSince, noonSeconds, daysFromCivil]
  · norm_num [hoursSince, noonSeconds, daysFromCivil]
  · norm_num [hoursSince, noonSeconds, daysFromCivil]
  · rw [get_latest_fresh_episode_uri, freshLoop_cons]
    have he : episodeFresh ((noonSeconds 2024 1 10 : Int) : ℚ) FRESH_HOURS
        ⟨"uri:jan09", some "2024-01-09"⟩ = true := by
      simp [episodeFresh, h1, hoursSince, FRESH_HOURS, noonSeconds, daysFromCivil]
      norm_num
    rw [he, if_pos rfl]

/-- C9: an episode whose parsed release instant lies strictly in the future
has negative elapsed hours, hence passes the freshness test for any
non-negative window; it is selected whenever every episode before it in the
fetched order fails the test. -/
theorem future_release_always_fresh (now : ℚ) (fh : Int) (pre post : List Episode)
    (e : Episode) (rd : String) (y m d : Nat)
    (hfh : 0 ≤ fh)
    (hpre : ∀ x ∈ pre, episodeFresh now fh x = false)
    (hrd : e.release_date = some rd) (hne : rd ≠ "")
    (hp : parseYMD rd = some (y, m, d))
    (hfut : now < ((noonSeconds y m d : Int) : ℚ)) :
    hoursSince now (noonSeconds y m d) < 0 ∧
    get_latest_fresh_episode_uri now fh (pre ++ e :: post) = some e.uri := by
  have hneg : hoursSince now (noonSeconds y m d) < 0 := by
    rw [hoursSince]
    apply div_neg_of_neg_of_pos
    · linarith
    · norm_num
  refine ⟨hneg, ?_⟩
  apply get_latest_of_fresh_at now fh pre post e hpre
  have hle : hoursSince now (noonSeconds y m d) ≤ (fh : ℚ) := by
    have : (0 : ℚ) ≤ (fh : ℚ) := by exact_mod_cast hfh
    linarith
  simp [episodeFresh, hrd, hne, hp, hle]

/-- Witness for C9: with "now" at noon UTC on 2024-01-10 and the 36-hour
window, an episode released 2024-02-01 (in the future) has negative elapsed
hours and is selected. -/
theorem future_release_always_fresh_witness :
    hoursSince ((1704888000 : Int) : ℚ) (noonSeconds 2024 2 1) < 0 ∧
    get_latest_fresh_episode_uri ((1704888000 : Int) : ℚ) FRESH_HOURS
      [⟨"uri:f", some "2024-02-01"⟩] = some "uri:f" := by
  have h := future_release_always_fresh ((1704888000 : Int) : ℚ) FRESH_HOURS
    [] [] ⟨"uri:f", some "2024-02-01"⟩ "2024-02-01" 2024 2 1
    (by norm_num [FRESH_HOURS]) (by intro x hx; simp at hx) rfl (by decide) rfl
    (by norm_num [noonSeconds, daysFromCivil])
  simpa using h

/-! ## Lemmas about the Episode List Builder -/

theorem build_loop_spec (w : World) (queries : List String) :
    ∀ (calls : List Call) (acc seen : List String),
      acc.Nodup → (∀ x ∈ acc, x ∈ seen) →
      (build_loop w queries calls acc seen).2.1.Nodup ∧
      ∃ extra, (build_loop w queries calls acc seen).2.1 = acc ++ extra ∧
        extra.Sublist (candidates w queries) := by
  induction queries with
  | nil =>
    intro calls acc seen h1 _h2
    exact ⟨h1, [], by simp [build_loop], List.nil_sublist _⟩
  | cons q qs ih =>
    intro calls acc seen h1 h2
    cases hs : w.searchShow q with
    | none =>
      have hcand : candidates w (q :: qs) = candidates w qs := by
        simp [candidates, List.filterMap_cons, candidateURI, hs]
      obtain ⟨hnd, extra, heq, hsub⟩ := ih (calls ++ [Call.getSearch q]) acc seen h1 h2
      exact ⟨by simpa [build_loop, add_latest, hs] using hnd,
        extra, by simpa [build_loop, add_latest, hs] using heq,
        hcand ▸ hsub⟩
    | some sid =>
      cases hu : get_latest_fresh_episode_uri w.now FRESH_HOURS (w.episodes sid) with
      | none =>
        have hcand : candidates w (q :: qs) = candidates w qs := by
          simp [candidates, List.filterMap_cons, candidateURI, hs, hu]
        obtain ⟨hnd, extra, heq, hsub⟩ :=
          ih (calls ++ [Call.getSearch q, Call.getEpisodes sid]) acc seen h1 h2
        exact ⟨by simpa [build_loop, add_latest, hs, hu] using hnd,
          extra, by simpa [build_loop, add_latest, hs, hu] using heq,
          hcand ▸ hsub⟩
      | some uri =>
        by_cases hk : uri ≠ "" ∧ uri ∉ seen
        · have hcand : candidates w (q :: qs) = uri :: candidates w qs := by
            simp [candidates, List.filterMap_cons, candidateURI, hs, hu, hk.1]
          have hacc : uri ∉ acc := fun hmem => hk.2 (h2 uri hmem)
          have h1' : (acc ++ [uri]).Nodup := by
            rw [List.nodup_append]
            refine ⟨h1, List.nodup_singleton uri, ?_⟩
            intro x hx hx'
            rw [List.mem_singleton] at hx'
            exact hacc (hx' ▸ hx)
          have h2' : ∀ x ∈ acc ++ [uri], x ∈ uri :: seen := by
            intro x hx
            rcases List.mem_append.mp hx with hx | hx
            · exact List.mem_cons_of_mem uri (h2 x hx)
            · rw [List.mem_singleton] at hx
              exact hx ▸ List.mem_cons_self uri seen
          obtain ⟨hnd, extra, heq, hsub⟩ :=
            ih (calls ++ [Call.getSearch q, Call.getEpisodes sid])
              (acc ++ [uri]) (uri :: seen) h1' h2'
          refine ⟨by simpa [build_loop, add_latest, hs, hu, hk] using hnd,
            uri :: extra, ?_, ?_⟩
          · have : (build_loop w qs (calls ++ [Call.getSearch q, Call.getEpisodes sid])
                (acc ++ [uri]) (uri :: seen)).2.1 = acc ++ uri :: extra := by
              rw [heq, List.append_assoc]
              rfl
            simpa [build_loop, add_latest, hs, hu, hk] using this
          · rw [hcand]
            exact List.Sublist.cons₂ uri hsub
        · obtain ⟨hnd, extra, heq, hsub⟩ :=
            ih (calls ++ [Call.getSearch q, Call.getEpisodes sid]) acc seen h1 h2
          refine ⟨by simpa [build_loop, add_latest, hs, hu, hk] using hnd,
            extra, by simpa [build_loop, add_latest, hs, hu, hk] using heq, ?_⟩
          rcases hcu : candidateURI w q with _ | u
          · have hcand : candidates w (q :: qs) = candidates w qs := by
              simp [candidates, List.filterMap_cons, hcu]
            rw [hcand]
            exact hsub
          · have hcand : candidates w (q :: qs) = u :: candidates w qs := by
              simp [candidates, List.filterMap_cons, hcu]
            rw [hcand]
            exact List.Sublist.cons u hsub

/-- C1: every run of the episode list builder returns a duplicate-free list
whose URIs appear in the order of the configured show queries (news then
sports, restricted to queries that resolved and yielded a URI), of length at
most 20. -/
theorem build_episode_list_nodup_ordered_capped (w : World) :
    (build_episode_list w).2.Nodup ∧
    (build_episode_list w).2.Sublist
      (candidates w (NEWS_SHOW_QUERIES ++ SPORTS_SHOW_QUERIES)) ∧
    (build_episode_list w).2.length ≤ 20 := by
  obtain ⟨hnd, extra, heq, hsub⟩ :=
    build_loop_spec w (NEWS_SHOW_QUERIES ++ SPORTS_SHOW_QUERIES) [] [] []
      List.nodup_nil (by intro x hx; simp at hx)
  have hres : (build_episode_list w).2 =
      (build_loop w (NEWS_SHOW_QUERIES ++ SPORTS_SHOW_QUERIES) [] [] []).2.1.take 20 :=
    rfl
  rw [heq, List.nil_append] at hres
  have hnd' : extra.Nodup := by
    rw [heq] at hnd
    simpa using hnd
  refine ⟨?_, ?_, ?_⟩
  · rw [hres]
    exact List.Nodup.sublist (List.take_sublist 20 extra) hnd'
  · rw [hres]
    exact (List.take_sublist 20 extra).trans hsub
  · rw [hres]
    exact List.length_take_le 20 extra

/-! ## Lemmas about the Playlist Resolver -/

theorem lookup_pages_snd (name : String) (offset : Nat) (ps : List PlaylistEntry) :
    (lookup_pages name offset ps).2 =
      (ps.find? (fun playlist => playlist.name = name)).map PlaylistEntry.id := by
  induction offset, ps using lookup_pages.induct name with
  | case1 offset ps playlist hfind =>
    rw [lookup_pages, hfind]
    conv_rhs => rw [← List.take_append_drop 50 ps]
    rw [List.find?_append, hfind]
    rfl
  | case2 offset ps hfind h ih =>
    rw [lookup_pages, hfind]
    simp only [h, dif_pos]
    conv_rhs => rw [← List.take_append_drop 50 ps]
    rw [List.find?_append, hfind, Option.none_or]
    exact ih
  | case3 offset ps hfind h =>
    rw [lookup_pages, hfind]
    simp only [h, dif_neg, not_false_iff]
    have : ps.take 50 = ps := List.take_of_length_le (Nat.le_of_not_lt h)
    rw [← this, hfind]
    rfl

/-- C5: the playlist resolver returns the ID of the first playlist in
pagination order whose name equals the target exactly (case-sensitively), and
when no playlist matches it creates one with the given name, description and
visibility and returns the newly assigned ID. -/
theorem get_or_create_playlist_first_match_or_create (w : World)
    (user_id name description : String) (isPublic : Bool) :
    (get_or_create_playlist w user_id name description isPublic).2 =
      ((w.playlists.find? (fun playlist => playlist.name = name)).map
        PlaylistEntry.id).getD (w.createId user_id name description isPublic) := by
  have h := lookup_pages_snd name 0 w.playlists
  unfold get_or_create_playlist
  cases hlp : lookup_pages name 0 w.playlists with
  | mk calls r =>
    rw [hlp] at h
    cases r with
    | none =>
      simp only at h
      rw [← h]
      rfl
    | some playlist_id =>
      simp only at h
      rw [← h]
      rfl

/-! ## Lemmas for the silent-skip behaviour of the builder -/

theorem add_latest_snd (w : World) (c₁ c₂ : List Call) (acc seen : List String)
    (q : String) :
    (add_latest w c₁ acc seen q).2 = (add_latest w c₂ acc seen q).2 := by
  cases hs : w.searchShow q with
  | none => simp [add_latest, hs]
  | some sid =>
    cases hu : get_latest_fresh_episode_uri w.now FRESH_HOURS (w.episodes sid) with
    | none => simp [add_latest, hs, hu]
    | some uri =>
      by_cases h : uri ≠ "" ∧ uri ∉ seen
      · simp [add_latest, hs, hu, h]
      · simp [add_latest, hs, hu, h]

theorem build_loop_snd_calls_irrel (w : World) (qs : List String) :
    ∀ (c₁ c₂ : List Call) (acc seen : List String),
      (build_loop w qs c₁ acc seen).2 = (build_loop w qs c₂ acc seen).2 := by
  induction qs with
  | nil => intro c₁ c₂ acc seen; rfl
  | cons q qs ih =>
    intro c₁ c₂ acc seen
    show (build_loop w qs (add_latest w c₁ acc seen q).1
        (add_latest w c₁ acc seen q).2.1 (add_latest w c₁ acc seen q).2.2).2 = _
    rw [add_latest_snd w c₁ c₂ acc seen q]
    exact ih _ _ _ _

/-- C6: a show whose episode listing is empty makes the selector return
`none`, and a query resolving to such a show leaves the builder's episode
list and seen set exactly as they were. -/
theorem empty_listing_contributes_nothing :
    (∀ (now : ℚ) (fh : Int), get_latest_fresh_episode_uri now fh [] = none) ∧
    ∀ (w : World) (q : String) (qs : List String) (calls : List Call)
      (acc seen : List String) (sid : String),
      w.searchShow q = some sid → w.episodes sid = [] →
      (build_loop w (q :: qs) calls acc seen).2 =
        (build_loop w qs calls acc seen).2 := by
  constructor
  · intro now fh
    rfl
  · intro w q qs calls acc seen sid hs he
    have hu : get_latest_fresh_episode_uri w.now FRESH_HOURS (w.episodes sid) = none := by
      rw [he]
      rfl
    show (build_loop w qs (add_latest w calls acc seen q).1
        (add_latest w calls acc seen q).2.1 (add_latest w calls acc seen q).2.2).2 = _
    have hst : (add_latest w calls acc seen q).2 = (acc, seen) := by
      simp [add_latest, hs, hu]
    rw [hst]
    exact build_loop_snd_calls_irrel w qs _ calls acc seen

/-- Witness for C6: in a world where query "q1" resolves to a show with an
empty listing, the selector yields `none` on the empty listing and the
builder state after processing "q1" equals the state of not processing it. -/
theorem empty_listing_contributes_nothing_witness :
    get_latest_fresh_episode_uri 0 36 [] = none ∧
    (build_loop wEmptyListing ["q1"] [] [] []).2 =
      (build_loop wEmptyListing [] [] [] []).2 :=
  ⟨empty_listing_contributes_nothing.1 0 36,
   empty_listing_contributes_nothing.2 wEmptyListing "q1" [] [] [] [] "show1" rfl rfl⟩

/-! ## Lemmas locating the playlist write in the request trace -/

theorem lookup_pages_no_put (name : String) (offset : Nat) (ps : List PlaylistEntry)
    (pid : String) (uris : List String) :
    Call.putReplace pid uris ∉ (lookup_pages name offset ps).1 := by
  induction offset, ps using lookup_pages.induct name with
  | case1 offset ps playlist hfind =>
    rw [lookup_pages, hfind]
    simp
  | case2 offset ps hfind h ih =>
    rw [lookup_pages, hfind]
    simp only [h, dif_pos, List.mem_cons]
    rintro (h1 | h1)
    · exact Call.noConfusion h1
    · exact ih h1
  | case3 offset ps hfind h =>
    rw [lookup_pages, hfind]
    simp only [h, dif_neg, not_false_iff]
    simp

theorem get_or_create_no_put (w : World) (user_id name description : String)
    (isPublic : Bool) (pid : String) (uris : List String) :
    Call.putReplace pid uris ∉
      (get_or_create_playlist w user_id name description isPublic).1 := by
  have hnp := lookup_pages_no_put name 0 w.playlists pid uris
  unfold get_or_create_playlist
  cases hlp : lookup_pages name 0 w.playlists with
  | mk calls r =>
    rw [hlp] at hnp
    cases r with
    | none =>
      simp only [List.mem_append, List.mem_singleton]
      rintro (h1 | h1)
      · exact hnp h1
      · exact Call.noConfusion h1
    | some playlist_id => exact hnp

theorem add_latest_no_put (w : World) (calls : List Call) (acc seen : List String)
    (q : String) (pid : String) (uris : List String) :
    Call.putReplace pid uris ∈ (add_latest w calls acc seen q).1 →
    Call.putReplace pid uris ∈ calls := by
  cases hs : w.searchShow q with
  | none => simp [add_latest, hs]
  | some sid =>
    cases hu : get_latest_fresh_episode_uri w.now FRESH_HOURS (w.episodes sid) with
    | none => simp [add_latest, hs, hu]
    | some uri =>
      by_cases h : uri ≠ "" ∧ uri ∉ seen
      · simp [add_latest, hs, hu, h]
      · simp [add_latest, hs, hu, h]

theorem build_loop_no_put (w : World) (qs : List String) :
    ∀ (calls : List Call) (acc seen : List String) (pid : String) (uris : List String),
      Call.putReplace pid uris ∈ (build_loop w qs calls acc seen).1 →
      Call.putReplace pid uris ∈ calls := by
  induction qs with
  | nil => intro calls acc seen pid uris h; exact h
  | cons q qs ih =>
    intro calls acc seen pid uris h
    exact add_latest_no_put w calls acc seen q pid uris (ih _ _ _ pid uris h)

/-- C4: in a run whose environment reads and token exchange succeed, the
playlist-replacement write is issued exactly when the built episode list is
non-empty; when it is empty no replace request appears in the trace and the
"nothing fresh" notice is the printed outcome. -/
theorem empty_list_skips_write (w : World) (cid secret refresh token user_id : String)
    (h1 : env w.environ "SPOTIFY_CLIENT_ID" = .ok cid)
    (h2 : env w.environ "SPOTIFY_CLIENT_SECRET" = .ok secret)
    (h3 : env w.environ "SPOTIFY_REFRESH_TOKEN" = .ok refresh)
    (h4 : w.tokenResult = .ok token)
    (h5 : env w.environ "SPOTIFY_USER_ID" = .ok user_id) :
    ((build_episode_list w).2 = [] →
      (main_run w).2 = .ok NOTHING_FRESH_NOTICE ∧
      ∀ (pid : String) (uris : List String),
        Call.putReplace pid uris ∉ (main_run w).1) ∧
    ((build_episode_list w).2 ≠ [] →
      Call.putReplace
        (get_or_create_playlist w user_id PLAYLIST_NAME PLAYLIST_DESCRIPTION false).2
        (build_episode_list w).2 ∈ (main_run w).1) := by
  have hmr : main_run w =
      (if (build_episode_list w).2 = [] then
        (Call.postToken ::
            (get_or_create_playlist w user_id PLAYLIST_NAME PLAYLIST_DESCRIPTION false).1
          ++ (build_episode_list w).1, .ok NOTHING_FRESH_NOTICE)
      else
        (Call.postToken ::
            (get_or_create_playlist w user_id PLAYLIST_NAME PLAYLIST_DESCRIPTION false).1
          ++ (build_episode_list w).1
          ++ [Call.putReplace
                (get_or_create_playlist w user_id PLAYLIST_NAME PLAYLIST_DESCRIPTION false).2
                (build_episode_list w).2],
         .ok ("Playlist atualizada com " ++ toString (build_episode_list w).2.length
           ++ " episódios."))) := by
    simp only [main_run, h1, h2, h3, h4, h5]
  have hbnp : ∀ (pid : String) (uris : List String),
      Call.putReplace pid uris ∉ (build_episode_list w).1 := by
    intro pid uris hm
    have := build_loop_no_put w (NEWS_SHOW_QUERIES ++ SPORTS_SHOW_QUERIES)
      [] [] [] pid uris hm
    simp at this
  constructor
  · intro hempty
    have hmr1 : (main_run w).1 = Call.postToken ::
        ((get_or_create_playlist w user_id PLAYLIST_NAME PLAYLIST_DESCRIPTION false).1
          ++ (build_episode_list w).1) := by
      rw [hmr, if_pos hempty]
      rfl
    have hmr2 : (main_run w).2 = .ok NOTHING_FRESH_NOTICE := by
      rw [hmr, if_pos hempty]
    refine ⟨hmr2, ?_⟩
    intro pid uris hm
    rw [hmr1] at hm
    simp only [List.mem_cons, List.mem_append] at hm
    rcases hm with hm | hm | hm
    · exact Call.noConfusion hm
    · exact get_or_create_no_put w user_id PLAYLIST_NAME PLAYLIST_DESCRIPTION false
        pid uris hm
    · exact hbnp pid uris hm
  · intro hne
    have hmr1 : (main_run w).1 = Call.postToken ::
        ((get_or_create_playlist w user_id PLAYLIST_NAME PLAYLIST_DESCRIPTION false).1
          ++ (build_episode_list w).1
          ++ [Call.putReplace
                (get_or_create_playlist w user_id PLAYLIST_NAME PLAYLIST_DESCRIPTION false).2
                (build_episode_list w).2]) := by
      rw [hmr, if_neg hne]
      rfl
    rw [hmr1]
    simp

/-- Witness for C4: in a world where no show query resolves, the built list
is empty and the run ends with the "nothing fresh" notice. -/
theorem empty_list_skips_write_witness :
    (build_episode_list wNoShows).2 = [] ∧
    (main_run wNoShows).2 = .ok NOTHING_FRESH_NOTICE := by
  have hempty : (build_episode_list wNoShows).2 = [] := rfl
  exact ⟨hempty,
    ((empty_list_skips_write wNoShows "x" "x" "x" "tok" "x"
      rfl rfl rfl rfl rfl).1 hempty).1⟩

/-! ## Environment-abort behaviour -/

theorem env_error_of_missing (w : World) (name : String) (h : envMissing w name) :
    env w.environ name = .error ("Missing environment variable: " ++ name) := by
  rcases h with h | h <;> simp [env, h]

theorem env_ok_of_not_missing (w : World) (name : String) (h : ¬ envMissing w name) :
    ∃ v, env w.environ name = .ok v := by
  rcases he : w.environ name with _ | v
  · exact absurd (Or.inl he) h
  · by_cases hv : v = ""
    · exact absurd (Or.inr (hv ▸ he)) h
    · exact ⟨v, by simp [env, he, hv]⟩

/-- C8 counterexample: in a world whose three credential variables are set
and whose token exchange succeeds but whose `SPOTIFY_USER_ID` is unset, the
run aborts with the configuration error *after* the token-exchange network
call has already been made, so "no network call made before the abort" fails
for the owner/user identifier. -/
theorem user_id_abort_after_token_call :
    (main_run wNoUserId).2 =
      .error ("Missing environment variable: " ++ "SPOTIFY_USER_ID") ∧
    (main_run wNoUserId).1 = [Call.postToken] ∧
    (main_run wNoUserId).1 ≠ [] := by
  refine ⟨rfl, rfl, ?_⟩
  intro h
  exact List.noConfusion h

/-- C8 (amended): a missing credential variable (client ID, client secret or
refresh token) aborts the run with its configuration error before any network
call; a missing `SPOTIFY_USER_ID` aborts with its configuration error
immediately after the token exchange, whose network call is then the only one
in the trace. -/
theorem env_missing_abort_points (w : World) :
    (envMissing w "SPOTIFY_CLIENT_ID" →
      main_run w = ([],
        .error ("Missing environment variable: " ++ "SPOTIFY_CLIENT_ID"))) ∧
    (¬ envMissing w "SPOTIFY_CLIENT_ID" → envMissing w "SPOTIFY_CLIENT_SECRET" →
      main_run w = ([],
        .error ("Missing environment variable: " ++ "SPOTIFY_CLIENT_SECRET"))) ∧
    (¬ envMissing w "SPOTIFY_CLIENT_ID" → ¬ envMissing w "SPOTIFY_CLIENT_SECRET" →
      envMissing w "SPOTIFY_REFRESH_TOKEN" →
      main_run w = ([],
        .error ("Missing environment variable: " ++ "SPOTIFY_REFRESH_TOKEN"))) ∧
    ∀ token, ¬ envMissing w "SPOTIFY_CLIENT_ID" →
      ¬ envMissing w "SPOTIFY_CLIENT_SECRET" →
      ¬ envMissing w "SPOTIFY_REFRESH_TOKEN" →
      w.tokenResult = .ok token → envMissing w "SPOTIFY_USER_ID" →
      main_run w = ([Call.postToken],
        .error ("Missing environment variable: " ++ "SPOTIFY_USER_ID")) := by
  refine ⟨?_, ?_, ?_, ?_⟩
  · intro h
    simp [main_run, env_error_of_missing w _ h]
  · intro hn h
    obtain ⟨v1, hv1⟩ := env_ok_of_not_missing w _ hn
    simp [main_run, hv1, env_error_of_missing w _ h]
  · intro hn1 hn2 h
    obtain ⟨v1, hv1⟩ := env_ok_of_not_missing w _ hn1
    obtain ⟨v2, hv2⟩ := env_ok_of_not_missing w _ hn2
    simp [main_run, hv1, hv2, env_error_of_missing w _ h]
  · intro token hn1 hn2 hn3 htok h
    obtain ⟨v1, hv1⟩ := env_ok_of_not_missing w _ hn1
    obtain ⟨v2, hv2⟩ := env_ok_of_not_missing w _ hn2
    obtain ⟨v3, hv3⟩ := env_ok_of_not_missing w _ hn3
    simp [main_run, hv1, hv2, hv3, htok, env_error_of_missing w _ h]

/-- Witness for the amended C8: applied to the world with `SPOTIFY_USER_ID`
unset, the run aborts with that variable's error and a trace holding exactly
the token-exchange call. -/
theorem env_missing_abort_points_witness :
    main_run wNoUserId = ([Call.postToken],
      .error ("Missing environment variable: " ++ "SPOTIFY_USER_ID")) :=
  (env_missing_abort_points wNoUserId).2.2.2 "tok"
    (by rintro (h | h) <;> simp [wNoUserId] at h)
    (by rintro (h | h) <;> simp [wNoUserId] at h)
    (by rintro (h | h) <;> simp [wNoUserId] at h)
    rfl (Or.inl rfl)

/-- C10: an environment variable set to the empty string is treated exactly
like an absent one — the reader raises the missing-variable error, the same
result as on the environment with the variable removed. -/
theorem empty_env_value_treated_as_missing (environ : String → Option String)
    (name : String) (h : environ name = some "") :
    env environ name = .error ("Missing environment variable: " ++ name) ∧
    env environ name = env (fun n => if n = name then none else environ n) name := by
  constructor
  · simp [env, h]
  · simp [env, h]

/-- Witness for C10: a variable set to `""` yields the missing-variable
error. -/
theorem empty_env_value_treated_as_missing_witness :
    env (fun n => if n = "SPOTIFY_USER_ID" then some "" else none) "SPOTIFY_USER_ID" =
      .error ("Missing environment variable: " ++ "SPOTIFY_USER_ID") :=
  (empty_env_value_treated_as_missing
    (fun n => if n = "SPOTIFY_USER_ID" then some "" else none)
    "SPOTIFY_USER_ID" rfl).1

end DailyNews
